import Mathlib

/-!
Shallow embedding of the MAX6675 temperature-acquisition program
(`src/main.py`): the bit-banged sensor driver (`MAX6675.read`) and the
acquisition controller loop (pause / resume / quit handling, elapsed-time
bookkeeping, sample accumulation, CSV write-out).

Machine ticks (`time.ticks_ms`) are modelled as integers, `ticks_diff` as
integer subtraction (no wraparound, matching the monotonic-clock
assumption), temperatures and elapsed seconds as rationals (every value
produced by the program — a 13-bit magnitude times 0.25, and millisecond
differences divided by 1000.0 — is exactly representable in the source's
binary floating point, so the rational model is exact).
-/

namespace MAX6675

/-- Lines 55-58 of `MAX6675.read`: `if value & 0x4: return None` and
otherwise `value >>= 3; return value * 0.25`. -/
def decode (value : Nat) : Option ℚ :=
  if value &&& 0x4 ≠ 0 then none
  else some (((value >>> 3 : Nat) : ℚ) * (1/4))

/-- One iteration of the bit loop (lines 49-53): raise SCK, shift the
accumulator left, OR in the sampled SO bit, lower SCK.  The state is the
accumulator together with the trace of values written to the SCK pin. -/
def bitStep (so : Nat → Bool) (s : Nat × List Nat) (i : Nat) : Nat × List Nat :=
  ((s.1 <<< 1) ||| (bif so i then 1 else 0), s.2 ++ [1, 0])

/-- Result of one driver read: the assembled 16-bit word, the sequence of
values written to the SCK and CS pins during the call, and the decoded
temperature (`none` = fault). -/
structure ReadResult where
  value : Nat
  sckTrace : List Nat
  csTrace : List Nat
  temp : Option ℚ
  deriving Repr

/-- `MAX6675.read` (lines 44-58).  `so i` is the level of the serial-data
line sampled on the i-th clock pulse (i = 0..15).  The call drives CS low
(line 45), runs 16 bit-loop iterations (lines 48-53), drives CS high
(line 54) and then decodes (lines 55-58); the `time.sleep_us(10)` settle
delay has no data effect. -/
def read (so : Nat → Bool) : ReadResult :=
  let p := (List.range 16).foldl (bitStep so) (0, [])
  { value := p.1
    sckTrace := p.2
    csTrace := [0, 1]
    temp := decode p.1 }

/-- CS level set by `MAX6675.__init__` (line 42): `self.cs.value(1)`. -/
def initCsLevel : Nat := 1

/-- MSB-first interpretation of a bit list, head = most significant. -/
def ofBitsMSB : List Bool → Nat
  | [] => 0
  | b :: bs => (bif b then 1 else 0) * 2 ^ bs.length + ofBitsMSB bs

/-- Number of rising (0 → 1) edges in a pin trace, given the level the
pin held before the trace began. -/
def risingEdges : Nat → List Nat → Nat
  | _, [] => 0
  | prev, v :: rest =>
      (if prev = 0 ∧ v = 1 then 1 else 0) + risingEdges v rest

end MAX6675
namespace Ctrl

/-- Environment of one loop iteration: the (optional) keyboard line
consumed by `read_keyboard()` (line 114), the `time.ticks_ms()` value the
iteration would see in the key-handling branch (lines 117 / 121), the
`time.ticks_ms()` value read at line 130, and the serial-data levels the
sensor presents on the 16 clock pulses of this iteration's read. -/
structure IterInput where
  key : Option String
  tKey : ℤ
  tNow : ℤ
  so : List Bool

/-- One console line printed by the acquisition loop (lines 118, 123,
125, 137, 141). -/
inductive OutLine where
  | pausedMsg
  | resumedMsg
  | stopMsg
  | sampleLine (elapsed temp : ℚ)
  | faultMsg
  deriving Repr, DecidableEq

/-- Mutable state of the acquisition loop (lines 104-108), plus the
console output emitted so far and a `stopped` flag recording that control
has left the `while` loop through `break` (line 126). -/
structure CtrlState where
  paused_time : ℤ
  pause_start : Option ℤ
  paused : Bool
  sample_count : ℕ
  data : List (ℚ × ℚ)
  out : List OutLine
  stopped : Bool

/-- Line 69: `TOTAL_SAMPLES = 180`. -/
def TOTAL_SAMPLES : ℕ := 180

/-- State just before the `while` loop (lines 97, 105-108). -/
def initState : CtrlState :=
  { paused_time := 0, pause_start := none, paused := false,
    sample_count := 0, data := [], out := [], stopped := false }

/-- `sensor.read()` at line 135, with the presented serial-data levels
taken from the iteration input (absent positions read as low). -/
def sensorRead (inp : IterInput) : Option ℚ :=
  (MAX6675.read (fun i => inp.so.getD i false)).temp

/-- Keyboard handling (lines 114-126): `p` pauses when running, `r`
resumes when paused (adding `ticks_diff(pause_end, pause_start)` to
`paused_time`), `q` prints STOP and breaks; anything else is ignored.
The returned flag is true when the branch executed `break`. -/
def handleKey (inp : IterInput) (s : CtrlState) : CtrlState × Bool :=
  if inp.key = some "p" ∧ s.paused = false then
    ({ s with
        paused := true
        pause_start := some inp.tKey
        out := s.out ++ [OutLine.pausedMsg] }, false)
  else if inp.key = some "r" ∧ s.paused = true then
    ({ s with
        paused := false
        paused_time := s.paused_time + (inp.tKey - s.pause_start.getD 0)
        out := s.out ++ [OutLine.resumedMsg] }, false)
  else if inp.key = some "q" then
    ({ s with
        stopped := true
        out := s.out ++ [OutLine.stopMsg] }, true)
  else (s, false)

/-- One body of the `while` loop (lines 114-145): key handling, then —
when not paused — elapsed-time computation (lines 130-133), the sensor
read (line 135) and either sample storage (lines 137-139) or the fault
warning (line 141).  The sleeps (lines 143, 145) have no data effect.
The returned flag is true when the body executed `break`. -/
def loopIter (t0 : ℤ) (inp : IterInput) (s : CtrlState) : CtrlState × Bool :=
  let hk := handleKey inp s
  if hk.2 then hk
  else
    let s1 := hk.1
    if s1.paused = false then
      let elapsed : ℚ := ((inp.tNow - t0 - s1.paused_time : ℤ) : ℚ) / 1000
      match sensorRead inp with
      | some temp =>
          ({ s1 with
              out := s1.out ++ [OutLine.sampleLine elapsed temp],
              data := s1.data ++ [(elapsed, temp)],
              sample_count := s1.sample_count + 1 }, false)
      | none => ({ s1 with out := s1.out ++ [OutLine.faultMsg] }, false)
    else (s1, false)

/-- The `while sample_count < TOTAL_SAMPLES` loop (line 111) run on a
finite prefix of iteration environments: the guard is re-checked before
each body, a `break` ends the run (recorded in `stopped`, so a state that
has broken out never re-enters the loop). -/
def run (t0 : ℤ) : List IterInput → CtrlState → CtrlState
  | [], s => s
  | inp :: rest, s =>
      if s.stopped = true ∨ ¬ s.sample_count < TOTAL_SAMPLES then s
      else
        let r := loopIter t0 inp s
        if r.2 then r.1 else run t0 rest r.1

/-- One line of the produced CSV artifact (lines 84-86): the literal
header or one formatted data row. -/
inductive CsvLine where
  | header
  | row (elapsed temp : ℚ)
  deriving Repr, DecidableEq

/-- `write_csv` (lines 82-87): header line then one row per sample. -/
def write_csv (data : List (ℚ × ℚ)) : List CsvLine :=
  CsvLine.header :: data.map (fun p => CsvLine.row p.1 p.2)

/-- Lines 155-159: the artifact is written exactly when `data` is
non-empty. -/
def finalArtifact (s : CtrlState) : Option (List CsvLine) :=
  if s.data = [] then none else some (write_csv s.data)

end Ctrl

namespace Ctrl

/-- Clock-monotonicity assumption on one run's iteration environments:
starting from an instant `t`, successive `ticks_ms` readings never
decrease (each iteration reads the key-handling tick before the
acquisition tick, and the next iteration starts no earlier). -/
def ticksOrdered : ℤ → List IterInput → Prop
  | _, [] => True
  | t, inp :: rest => t ≤ inp.tKey ∧ inp.tKey ≤ inp.tNow ∧ ticksOrdered inp.tNow rest

/-- Active elapsed time (in ms) the loop would record at instant `T`:
`(now − t0) − paused_time`, with `now` frozen at the pause-start
timestamp while paused. -/
def act (t0 : ℤ) (s : CtrlState) (T : ℤ) : ℤ :=
  (if s.paused = true then s.pause_start.getD 0 else T) - t0 - s.paused_time

/-- Loop invariant at instant `T`: stored elapsed times are pairwise
non-decreasing and all lie below the current active elapsed time. -/
def Inv (t0 : ℤ) (s : CtrlState) (T : ℤ) : Prop :=
  s.data.Chain' (fun a b => a.1 ≤ b.1) ∧
  ∀ e ∈ s.data, 1000 * e.1 ≤ ((act t0 s T : ℤ) : ℚ)

end Ctrl
namespace MAX6675

theorem ofBitsMSB_lt (bs : List Bool) : ofBitsMSB bs < 2 ^ bs.length := by
  induction bs with
  | nil => simp [ofBitsMSB]
  | cons b bs ih =>
      simp only [ofBitsMSB, List.length_cons, pow_succ]
      cases b <;> simp <;> omega

theorem testBit_ofBitsMSB (bs : List Bool) (j : Nat) (hj : j < bs.length) :
    (ofBitsMSB bs).testBit j = bs.getD (bs.length - 1 - j) false := by
  induction bs generalizing j with
  | nil => simp at hj
  | cons b bs ih =>
      have hlt := ofBitsMSB_lt bs
      simp only [ofBitsMSB, List.length_cons]
      rw [mul_comm, Nat.testBit_mul_pow_two_add _ hlt]
      by_cases h : j < bs.length
      · rw [if_pos h, ih j h]
        have hidx : bs.length + 1 - 1 - j = (bs.length - 1 - j) + 1 := by omega
        rw [hidx, List.getD_cons_succ]
      · have hj' : j = bs.length := by
          simp only [List.length_cons] at hj; omega
        rw [if_neg h]
        subst hj'
        have h0 : bs.length + 1 - 1 - bs.length = 0 := by omega
        have h1 : bs.length - bs.length = 0 := by omega
        rw [h0, h1, List.getD_cons_zero]
        cases b <;> simp [Nat.testBit]

theorem bitStep_value (so : Nat → Bool) (l : List Nat) (v : Nat) (tr : List Nat) :
    (l.foldl (bitStep so) (v, tr)).1 =
      v * 2 ^ l.length + ofBitsMSB (l.map so) := by
  induction l generalizing v tr with
  | nil => simp [ofBitsMSB]
  | cons i l ih =>
      simp only [List.foldl_cons, bitStep, ih, List.length_cons, List.map_cons,
        ofBitsMSB, List.length_map]
      have hshift : v <<< 1 = v * 2 := by
        rw [Nat.shiftLeft_eq, pow_one]
      have hor : ∀ w : Nat, ∀ b : Bool,
          (w * 2) ||| (bif b then 1 else 0) = w * 2 + (bif b then 1 else 0) := by
        intro w b
        cases b
        · simp
        · show (w * 2) ||| 1 = w * 2 + 1
          have h2 : w * 2 = 2 ^ 1 * w := by ring
          rw [h2, ← Nat.mul_add_lt_is_or (by norm_num) w]
      rw [hshift, hor]
      ring

theorem bitStep_trace (so : Nat → Bool) (l : List Nat) (v : Nat) (tr : List Nat) :
    (l.foldl (bitStep so) (v, tr)).2 =
      tr ++ l.flatMap (fun _ => [1, 0]) := by
  induction l generalizing v tr with
  | nil => simp
  | cons i l ih =>
      simp only [List.foldl_cons, bitStep, ih, List.flatMap_cons]
      simp

theorem read_value (so : Nat → Bool) :
    (read so).value = ofBitsMSB ((List.range 16).map so) := by
  show ((List.range 16).foldl (bitStep so) (0, [])).1 = _
  rw [bitStep_value]
  simp

theorem read_sckTrace (so : Nat → Bool) :
    (read so).sckTrace = (List.range 16).flatMap (fun _ => [1, 0]) := by
  show ((List.range 16).foldl (bitStep so) (0, [])).2 = _
  rw [bitStep_trace]
  simp

end MAX6675

namespace MAX6675

theorem decode_of_bit2_clear {w : Nat} (h : w.testBit 2 = false) :
    decode w = some (((w >>> 3 : Nat) : ℚ) * (1/4)) := by
  have h4 := Nat.and_two_pow w 2
  rw [h] at h4
  norm_num at h4
  simp [decode, h4]

theorem decode_of_bit2_set {w : Nat} (h : w.testBit 2 = true) :
    decode w = none := by
  have h4 := Nat.and_two_pow w 2
  rw [h] at h4
  norm_num at h4
  simp [decode, h4]

theorem read_value_lt (so : Nat → Bool) : (read so).value < 2 ^ 16 := by
  rw [read_value]
  have h := ofBitsMSB_lt ((List.range 16).map so)
  simpa using h

end MAX6675

/-- C1: for every 16-bit word `w` assembled by the driver, if bit 2 of `w`
is clear then `read` decodes it to `(w >> 3) * 0.25` degrees Celsius, and
if bit 2 is set then `read` returns the fault signal (`none`) and derives
no temperature. -/
theorem C1_fault_bit_decode (so : Nat → Bool) :
    ((MAX6675.read so).value.testBit 2 = false →
      (MAX6675.read so).temp =
        some ((((MAX6675.read so).value >>> 3 : Nat) : ℚ) * (1/4))) ∧
    ((MAX6675.read so).value.testBit 2 = true →
      (MAX6675.read so).temp = none) := by
  constructor
  · intro h
    show MAX6675.decode _ = _
    exact MAX6675.decode_of_bit2_clear h
  · intro h
    show MAX6675.decode _ = _
    exact MAX6675.decode_of_bit2_set h

/-- Witness for C1: an all-zero bit sequence assembles word 0 (bit 2
clear) and decodes to 0 °C; an all-one bit sequence assembles 0xFFFF (bit
2 set) and yields the fault signal. -/
theorem C1_fault_bit_decode_witness :
    ((MAX6675.read (fun _ => false)).temp =
        some ((((MAX6675.read (fun _ => false)).value >>> 3 : Nat) : ℚ) * (1/4))) ∧
    ((MAX6675.read (fun _ => true)).temp = none) :=
  ⟨(C1_fault_bit_decode (fun _ => false)).1 (by decide),
   (C1_fault_bit_decode (fun _ => true)).2 (by decide)⟩

/-- C2: for every sequence of bits presented on the serial-data line, one
per clock pulse, `read` performs exactly 16 clock pulses (16 rising edges
on SCK) and assembles the word MSB-first: the bit sampled on the i-th
pulse (i = 0..15) ends up at bit position 15 - i of the accumulated
value. -/
theorem C2_msb_first_16_pulses (so : Nat → Bool) :
    MAX6675.risingEdges 0 (MAX6675.read so).sckTrace = 16 ∧
    ∀ i, i < 16 → (MAX6675.read so).value.testBit (15 - i) = so i := by
  constructor
  · rw [MAX6675.read_sckTrace]
    decide
  · intro i hi
    rw [MAX6675.read_value]
    have hlen : ((List.range 16).map so).length = 16 := by simp
    have hj : 15 - i < ((List.range 16).map so).length := by omega
    rw [MAX6675.testBit_ofBitsMSB _ _ hj, hlen]
    have hidx : 16 - 1 - (15 - i) = i := by omega
    rw [hidx]
    simp [List.getD, hi]

/-- Witness for C2: with the serial-data line high only on pulse 3, the
driver performs 16 pulses and the sampled bit lands at position 12. -/
theorem C2_msb_first_16_pulses_witness :
    MAX6675.risingEdges 0 (MAX6675.read (fun i => i = 3)).sckTrace = 16 ∧
    (MAX6675.read (fun i => i = 3)).value.testBit (15 - 3) = decide ((3 : Nat) = 3) :=
  ⟨(C2_msb_first_16_pulses (fun i => i = 3)).1,
   (C2_msb_first_16_pulses (fun i => i = 3)).2 3 (by decide)⟩

/-- C3 counterexample: the 16-bit word 0x8000 (= 32768) has bit 2 clear,
yet the driver's right shift by 3 yields 4096, which is not a 12-bit
magnitude (it exceeds 4095), and the decoded temperature is 1024 °C,
outside [0, 1023.75]. -/
theorem C3_twelve_bit_counterexample :
    (32768 : Nat) < 2 ^ 16 ∧ (32768 : Nat).testBit 2 = false ∧
    (32768 : Nat) >>> 3 = 4096 ∧ ¬ ((32768 : Nat) >>> 3 ≤ 4095) ∧
    MAX6675.decode 32768 = some 1024 ∧ ¬ ((1024 : ℚ) ≤ 1023.75) := by
  refine ⟨by decide, by decide, by decide, by decide, ?_, by norm_num⟩
  have h : (32768 : Nat) >>> 3 = 4096 := by decide
  rw [MAX6675.decode_of_bit2_clear (by decide), h]
  norm_num

/-- C3 amended: for every 16-bit word `w` with bit 2 clear AND bit 15
clear (w < 2^15), the right shift by 3 yields a 12-bit magnitude in
[0, 4095], so the decoded temperature is a multiple of 0.25 in
[0, 1023.75]. -/
theorem C3_twelve_bit_amended (w : Nat) (h15 : w < 2 ^ 15)
    (h2 : w.testBit 2 = false) :
    w >>> 3 ≤ 4095 ∧
    ∃ k : Nat, k = w >>> 3 ∧ k ≤ 4095 ∧
      MAX6675.decode w = some ((k : ℚ) * (1/4)) ∧
      0 ≤ ((k : ℚ) * (1/4)) ∧ ((k : ℚ) * (1/4)) ≤ 1023.75 := by
  have hdiv : w >>> 3 = w / 2 ^ 3 := Nat.shiftRight_eq_div_pow w 3
  have hk : w >>> 3 ≤ 4095 := by
    rw [hdiv]
    omega
  refine ⟨hk, w >>> 3, rfl, hk, MAX6675.decode_of_bit2_clear h2, by positivity, ?_⟩
  have hcast : ((w >>> 3 : Nat) : ℚ) ≤ 4095 := by exact_mod_cast hk
  calc ((w >>> 3 : Nat) : ℚ) * (1/4) ≤ 4095 * (1/4) := by linarith
    _ ≤ 1023.75 := by norm_num

/-- Witness for C3 amended: applied at w = 0x7FF8 (bit 2 and bit 15
clear), giving magnitude 4095 and temperature 1023.75 °C. -/
theorem C3_twelve_bit_amended_witness :
    (32760 : Nat) >>> 3 ≤ 4095 ∧
    ∃ k : Nat, k = (32760 : Nat) >>> 3 ∧ k ≤ 4095 ∧
      MAX6675.decode 32760 = some ((k : ℚ) * (1/4)) ∧
      0 ≤ ((k : ℚ) * (1/4)) ∧ ((k : ℚ) * (1/4)) ≤ 1023.75 :=
  C3_twelve_bit_amended 32760 (by decide) (by decide)

/-- C4: on every exit path of the driver's `read` — fault and success
alike — the last value written to the chip-select line is 1 (idle-high),
and `__init__` also leaves the line high, so chip-select is high between
any two consecutive calls to `read`. -/
theorem C4_cs_idle_high (so : Nat → Bool) :
    (MAX6675.read so).csTrace.getLast? = some 1 ∧
    MAX6675.initCsLevel = 1 :=
  ⟨rfl, rfl⟩
namespace Ctrl

theorem run_cons (t0 : ℤ) (inp : IterInput) (rest : List IterInput)
    (s : CtrlState) :
    run t0 (inp :: rest) s =
      if s.stopped = true ∨ ¬ s.sample_count < TOTAL_SAMPLES then s
      else if (loopIter t0 inp s).2 then (loopIter t0 inp s).1
      else run t0 rest (loopIter t0 inp s).1 := by
  simp only [run]

theorem handleKey_data (inp : IterInput) (s : CtrlState) :
    (handleKey inp s).1.data = s.data ∧
    (handleKey inp s).1.sample_count = s.sample_count := by
  unfold handleKey
  split_ifs <;> simp

theorem handleKey_flag (inp : IterInput) (s : CtrlState) :
    (handleKey inp s).2 = true ↔ inp.key = some "q" := by
  unfold handleKey
  split_ifs with h1 h2 h3 <;> simp_all

theorem handleKey_q (inp : IterInput) (s : CtrlState) (h : inp.key = some "q") :
    handleKey inp s =
      ({ s with
          stopped := true
          out := s.out ++ [OutLine.stopMsg] }, true) := by
  unfold handleKey
  split_ifs with h1 h2 <;> simp_all

theorem handleKey_stopped (inp : IterInput) (s : CtrlState)
    (h : inp.key ≠ some "q") : (handleKey inp s).1.stopped = s.stopped := by
  unfold handleKey
  split_ifs <;> simp_all

theorem loopIter_flag (t0 : ℤ) (inp : IterInput) (s : CtrlState) :
    (loopIter t0 inp s).2 = (handleKey inp s).2 := by
  simp only [loopIter]
  cases hk : (handleKey inp s).2
  · simp only [hk, Bool.false_eq_true, if_false]
    split_ifs with hp
    · rcases h : sensorRead inp with _ | v <;> simp [h]
    · rfl
  · simp [hk]

theorem loopIter_break_stopped (t0 : ℤ) (inp : IterInput) (s : CtrlState)
    (h : (loopIter t0 inp s).2 = true) : (loopIter t0 inp s).1.stopped = true := by
  rw [loopIter_flag] at h
  have hq : inp.key = some "q" := (handleKey_flag inp s).mp h
  simp only [loopIter, handleKey_q inp s hq]
  simp

theorem loopIter_count_le (t0 : ℤ) (inp : IterInput) (s : CtrlState) :
    (loopIter t0 inp s).1.sample_count ≤ s.sample_count + 1 := by
  have hd := (handleKey_data inp s).2
  simp only [loopIter]
  split_ifs with h1 h2
  · omega
  · rcases h : sensorRead inp with _ | v <;> simp [h] <;> omega
  · dsimp only
    omega

theorem loopIter_count_data (t0 : ℤ) (inp : IterInput) (s : CtrlState)
    (h : s.sample_count = s.data.length) :
    (loopIter t0 inp s).1.sample_count = (loopIter t0 inp s).1.data.length := by
  have hd := (handleKey_data inp s).1
  have hc := (handleKey_data inp s).2
  simp only [loopIter]
  split_ifs with h1 h2
  · rw [hc, hd, h]
  · rcases hr : sensorRead inp with _ | v <;> simp [hr, hd, hc, h]
  · dsimp only
    rw [hc, hd, h]

theorem run_stuck (t0 : ℤ) (l : List IterInput) (s : CtrlState)
    (h : s.stopped = true ∨ ¬ s.sample_count < TOTAL_SAMPLES) :
    run t0 l s = s := by
  cases l with
  | nil => rfl
  | cons inp rest =>
      rw [run_cons, if_pos h]

theorem run_append (t0 : ℤ) (l1 l2 : List IterInput) (s : CtrlState) :
    run t0 (l1 ++ l2) s = run t0 l2 (run t0 l1 s) := by
  induction l1 generalizing s with
  | nil => rfl
  | cons inp rest ih =>
      rw [List.cons_append, run_cons, run_cons]
      by_cases h : s.stopped = true ∨ ¬ s.sample_count < TOTAL_SAMPLES
      · rw [if_pos h, if_pos h, run_stuck t0 l2 s h]
      · rw [if_neg h, if_neg h]
        by_cases hb : (loopIter t0 inp s).2
        · rw [if_pos hb, if_pos hb,
            run_stuck t0 l2 _ (Or.inl (loopIter_break_stopped t0 inp s hb))]
        · rw [if_neg hb, if_neg hb]
          exact ih _

theorem run_count_le (t0 : ℤ) (l : List IterInput) :
    ∀ s : CtrlState, s.sample_count ≤ TOTAL_SAMPLES →
      (run t0 l s).sample_count ≤ TOTAL_SAMPLES := by
  induction l with
  | nil => intro s h; exact h
  | cons inp rest ih =>
      intro s h
      by_cases hg : s.stopped = true ∨ ¬ s.sample_count < TOTAL_SAMPLES
      · rw [run_stuck t0 _ s hg]; exact h
      · have hlt : s.sample_count < TOTAL_SAMPLES := by
          by_contra hc
          exact hg (Or.inr hc)
        have hle : (loopIter t0 inp s).1.sample_count ≤ TOTAL_SAMPLES := by
          have := loopIter_count_le t0 inp s
          omega
        rw [run_cons, if_neg hg]
        by_cases hb : (loopIter t0 inp s).2
        · rw [if_pos hb]; exact hle
        · rw [if_neg hb]; exact ih _ hle

theorem run_count_data (t0 : ℤ) (l : List IterInput) :
    ∀ s : CtrlState, s.sample_count = s.data.length →
      (run t0 l s).sample_count = (run t0 l s).data.length := by
  induction l with
  | nil => intro s h; exact h
  | cons inp rest ih =>
      intro s h
      by_cases hg : s.stopped = true ∨ ¬ s.sample_count < TOTAL_SAMPLES
      · rw [run_stuck t0 _ s hg]; exact h
      · rw [run_cons, if_neg hg]
        by_cases hb : (loopIter t0 inp s).2
        · rw [if_pos hb]; exact loopIter_count_data t0 inp s h
        · rw [if_neg hb]; exact ih _ (loopIter_count_data t0 inp s h)

end Ctrl

namespace Ctrl

theorem handleKey_no_break (inp : IterInput) (s : CtrlState)
    (hq : inp.key ≠ some "q") : (handleKey inp s).2 = false := by
  cases hkk : (handleKey inp s).2
  · rfl
  · exact absurd ((handleKey_flag inp s).mp hkk) hq

theorem loopIter_fault (t0 : ℤ) (inp : IterInput) (s : CtrlState)
    (hq : inp.key ≠ some "q")
    (hp : (handleKey inp s).1.paused = false)
    (hf : sensorRead inp = none) :
    loopIter t0 inp s =
      ({ (handleKey inp s).1 with
          out := (handleKey inp s).1.out ++ [OutLine.faultMsg] }, false) := by
  simp only [loopIter, handleKey_no_break inp s hq, hp, hf]
  simp

end Ctrl

/-- C5: when the sensor read faults during a running (non-paused)
iteration that consumed no quit command, the controller emits the warning
line, appends nothing to the sample sequence, does not increment the
sample count, and the loop continues with the next iteration instead of
terminating. -/
theorem C5_fault_skips_sample (t0 : ℤ) (inp : Ctrl.IterInput)
    (s : Ctrl.CtrlState) (rest : List Ctrl.IterInput)
    (hq : inp.key ≠ some "q")
    (hp : (Ctrl.handleKey inp s).1.paused = false)
    (hf : Ctrl.sensorRead inp = none)
    (hs : s.stopped = false)
    (hc : s.sample_count < 180) :
    (Ctrl.loopIter t0 inp s).1.data = s.data ∧
    (Ctrl.loopIter t0 inp s).1.sample_count = s.sample_count ∧
    (Ctrl.loopIter t0 inp s).1.out =
      (Ctrl.handleKey inp s).1.out ++ [Ctrl.OutLine.faultMsg] ∧
    (Ctrl.loopIter t0 inp s).2 = false ∧
    Ctrl.run t0 (inp :: rest) s = Ctrl.run t0 rest (Ctrl.loopIter t0 inp s).1 := by
  have hl := Ctrl.loopIter_fault t0 inp s hq hp hf
  have hd := (Ctrl.handleKey_data inp s).1
  have hcnt := (Ctrl.handleKey_data inp s).2
  have hg : ¬ (s.stopped = true ∨ ¬ s.sample_count < Ctrl.TOTAL_SAMPLES) := by
    rintro (h | h)
    · rw [hs] at h; exact Bool.false_ne_true h
    · exact h hc
  refine ⟨?_, ?_, ?_, ?_, ?_⟩
  · rw [hl]; exact hd
  · rw [hl]; exact hcnt
  · rw [hl]
  · rw [hl]
  · rw [Ctrl.run_cons, if_neg hg, hl]
    simp

/-- Witness for C5: a fault iteration (all-ones word, no key pressed)
from the initial state keeps the data empty, the count at 0, and appends
the warning line. -/
theorem C5_fault_skips_sample_witness :
    (Ctrl.loopIter 0 ⟨none, 0, 5, List.replicate 16 true⟩
        Ctrl.initState).1.data = Ctrl.initState.data ∧
    (Ctrl.loopIter 0 ⟨none, 0, 5, List.replicate 16 true⟩
        Ctrl.initState).1.sample_count = Ctrl.initState.sample_count ∧
    (Ctrl.loopIter 0 ⟨none, 0, 5, List.replicate 16 true⟩
        Ctrl.initState).1.out =
      (Ctrl.handleKey ⟨none, 0, 5, List.replicate 16 true⟩
        Ctrl.initState).1.out ++ [Ctrl.OutLine.faultMsg] ∧
    (Ctrl.loopIter 0 ⟨none, 0, 5, List.replicate 16 true⟩
        Ctrl.initState).2 = false ∧
    Ctrl.run 0 [⟨none, 0, 5, List.replicate 16 true⟩] Ctrl.initState =
      Ctrl.run 0 []
        (Ctrl.loopIter 0 ⟨none, 0, 5, List.replicate 16 true⟩ Ctrl.initState).1 :=
  C5_fault_skips_sample 0 ⟨none, 0, 5, List.replicate 16 true⟩
    Ctrl.initState [] (by decide) (by decide) (by decide) (by decide) (by decide)

/-- C6: the sample count of every reachable loop state is at most 180;
once it equals 180 the loop performs no further iteration (quota
termination is exact); and a faulting read never increments the count, so
faults consume no quota slot. -/
theorem C6_quota_exact (t0 : ℤ) (inps : List Ctrl.IterInput) :
    (Ctrl.run t0 inps Ctrl.initState).sample_count ≤ 180 ∧
    (¬ (Ctrl.run t0 inps Ctrl.initState).sample_count < 180 →
      (Ctrl.run t0 inps Ctrl.initState).sample_count = 180) ∧
    ((Ctrl.run t0 inps Ctrl.initState).sample_count = 180 →
      ∀ more, Ctrl.run t0 (inps ++ more) Ctrl.initState =
        Ctrl.run t0 inps Ctrl.initState) ∧
    (∀ inp s, Ctrl.sensorRead inp = none →
      (Ctrl.loopIter t0 inp s).1.sample_count = s.sample_count) := by
  have hle : (Ctrl.run t0 inps Ctrl.initState).sample_count ≤ 180 :=
    Ctrl.run_count_le t0 inps Ctrl.initState (by norm_num [Ctrl.initState, Ctrl.TOTAL_SAMPLES])
  refine ⟨hle, by omega, ?_, ?_⟩
  · intro h more
    rw [Ctrl.run_append]
    exact Ctrl.run_stuck t0 more _ (Or.inr (by rw [h]; norm_num [Ctrl.TOTAL_SAMPLES]))
  · intro inp s hf
    have hcnt := (Ctrl.handleKey_data inp s).2
    simp only [Ctrl.loopIter]
    split_ifs with h1 h2
    · exact hcnt
    · simp [hf, hcnt]
    · exact hcnt

/-- Witness for C6: on the empty input the count is 0 ≤ 180, and one
concrete faulting iteration leaves a state's count unchanged. -/
theorem C6_quota_exact_witness :
    (Ctrl.run 0 [] Ctrl.initState).sample_count ≤ 180 ∧
    (Ctrl.loopIter 0 ⟨none, 0, 5, List.replicate 16 true⟩
        Ctrl.initState).1.sample_count = Ctrl.initState.sample_count :=
  ⟨(C6_quota_exact 0 []).1,
   (C6_quota_exact 0 []).2.2.2 ⟨none, 0, 5, List.replicate 16 true⟩
     Ctrl.initState (by decide)⟩

/-- C9: a `q` command consumed in any non-terminal loop state (running or
paused, quota not yet reached) terminates the loop on that iteration:
the run ends in the stopped state with the sample sequence unchanged, and
a non-empty sequence is still written to the CSV artifact. -/
theorem C9_quit_short_circuit (t0 : ℤ) (inp : Ctrl.IterInput)
    (rest : List Ctrl.IterInput) (s : Ctrl.CtrlState)
    (hq : inp.key = some "q")
    (hs : s.stopped = false)
    (hc : s.sample_count < 180) :
    Ctrl.run t0 (inp :: rest) s =
      { s with
          stopped := true
          out := s.out ++ [Ctrl.OutLine.stopMsg] } ∧
    (Ctrl.run t0 (inp :: rest) s).data = s.data ∧
    (s.data ≠ [] →
      Ctrl.finalArtifact (Ctrl.run t0 (inp :: rest) s) =
        some (Ctrl.write_csv s.data)) := by
  have hg : ¬ (s.stopped = true ∨ ¬ s.sample_count < Ctrl.TOTAL_SAMPLES) := by
    rintro (h | h)
    · rw [hs] at h; exact Bool.false_ne_true h
    · exact h hc
  have hl : Ctrl.loopIter t0 inp s =
      ({ s with
          stopped := true
          out := s.out ++ [Ctrl.OutLine.stopMsg] }, true) := by
    simp only [Ctrl.loopIter, Ctrl.handleKey_q inp s hq]
    simp
  have hrun : Ctrl.run t0 (inp :: rest) s =
      { s with
          stopped := true
          out := s.out ++ [Ctrl.OutLine.stopMsg] } := by
    rw [Ctrl.run_cons, if_neg hg, hl]
    simp
  refine ⟨hrun, by rw [hrun], ?_⟩
  intro hne
  rw [hrun]
  simp only [Ctrl.finalArtifact]
  rw [if_neg hne]

/-- Witness for C9: a `q` pressed on the first iteration, from a state
already holding one sample, stops the loop at once and the sample is
still written out. -/
theorem C9_quit_short_circuit_witness :
    Ctrl.run 0 [⟨some "q", 3, 4, []⟩]
        { Ctrl.initState with
            sample_count := 1
            data := [(1/2, 20)] } =
      { { Ctrl.initState with
            sample_count := 1
            data := [(1/2, 20)] } with
          stopped := true
          out := ({ Ctrl.initState with
            sample_count := 1
            data := [(1/2, 20)] } : Ctrl.CtrlState).out ++ [Ctrl.OutLine.stopMsg] } ∧
    (Ctrl.run 0 [⟨some "q", 3, 4, []⟩]
        { Ctrl.initState with
            sample_count := 1
            data := [(1/2, 20)] }).data =
      ({ Ctrl.initState with
          sample_count := 1
          data := [(1/2, 20)] } : Ctrl.CtrlState).data ∧
    Ctrl.finalArtifact (Ctrl.run 0 [⟨some "q", 3, 4, []⟩]
        { Ctrl.initState with
            sample_count := 1
            data := [(1/2, 20)] }) =
      some (Ctrl.write_csv ({ Ctrl.initState with
          sample_count := 1
          data := [(1/2, 20)] } : Ctrl.CtrlState).data) := by
  have h := C9_quit_short_circuit 0 ⟨some "q", 3, 4, []⟩ []
    { Ctrl.initState with
        sample_count := 1
        data := [(1/2, 20)] } (by decide) (by decide) (by decide)
  exact ⟨h.1, h.2.1, h.2.2 (by decide)⟩

/-- C10: at every top-of-loop point reachable from the initial state the
sample counter equals the length of the stored sample sequence, so the
guard's quota bound is exactly a bound on the number of stored samples. -/
theorem C10_count_is_length (t0 : ℤ) (inps : List Ctrl.IterInput) :
    (Ctrl.run t0 inps Ctrl.initState).sample_count =
      (Ctrl.run t0 inps Ctrl.initState).data.length :=
  Ctrl.run_count_data t0 inps Ctrl.initState rfl

/-- C8: a running iteration records elapsed time equal to
(current timestamp − start timestamp − cumulative paused duration)
converted to fractional seconds, and a resume adds exactly
(resume timestamp − pause-start timestamp) to the cumulative paused
duration — so paused intervals are excluded from every stored elapsed
time. -/
theorem C8_pause_exclusion (t0 : ℤ) (inp : Ctrl.IterInput)
    (s : Ctrl.CtrlState) :
    (∀ v : ℚ, (Ctrl.handleKey inp s).2 = false →
      (Ctrl.handleKey inp s).1.paused = false →
      Ctrl.sensorRead inp = some v →
      (Ctrl.loopIter t0 inp s).1.data =
        (Ctrl.handleKey inp s).1.data ++
          [(((inp.tNow - t0 - (Ctrl.handleKey inp s).1.paused_time : ℤ) : ℚ)
              / 1000, v)]) ∧
    (∀ ps : ℤ, inp.key = some "r" → s.paused = true →
      s.pause_start = some ps →
      (Ctrl.handleKey inp s).1.paused_time = s.paused_time + (inp.tKey - ps)) := by
  constructor
  · intro v hb hp hv
    simp only [Ctrl.loopIter, hb, hp, hv]
    simp
  · intro ps hr hp hps
    unfold Ctrl.handleKey
    split_ifs with h1 h2
    · exact absurd h1.2 (by simp [hp])
    · simp [hps]
    · exact absurd ⟨hr, hp⟩ h2
    · exact absurd ⟨hr, hp⟩ h2

/-- Witness for C8: a successful read with no key pressed stores elapsed
time 5 ms = 0.005 s, and a resume at tick 7 after a pause started at
tick 3 adds exactly 4 ms of paused duration. -/
theorem C8_pause_exclusion_witness :
    (Ctrl.loopIter 0 ⟨none, 0, 5, List.replicate 16 false⟩
        Ctrl.initState).1.data =
      (Ctrl.handleKey ⟨none, 0, 5, List.replicate 16 false⟩
        Ctrl.initState).1.data ++
        [((((5 : ℤ) - 0 - (Ctrl.handleKey ⟨none, 0, 5, List.replicate 16 false⟩
            Ctrl.initState).1.paused_time : ℤ) : ℚ) / 1000, 0)] ∧
    (Ctrl.handleKey ⟨some "r", 7, 9, []⟩
        { Ctrl.initState with
            paused := true
            pause_start := some 3 }).1.paused_time =
      ({ Ctrl.initState with
          paused := true
          pause_start := some 3 } : Ctrl.CtrlState).paused_time + ((7 : ℤ) - 3) := by
  constructor
  · refine (C8_pause_exclusion 0 ⟨none, 0, 5, List.replicate 16 false⟩
      Ctrl.initState).1 0 (by decide) (by decide) ?_
    show MAX6675.decode
      (MAX6675.read (fun i => (List.replicate 16 false : List Bool).getD i false)).value =
        some 0
    have hval : (MAX6675.read
        (fun i => (List.replicate 16 false : List Bool).getD i false)).value = 0 := by
      decide
    rw [hval]
    simp [MAX6675.decode]
  · exact (C8_pause_exclusion 0 ⟨some "r", 7, 9, []⟩
      { Ctrl.initState with
          paused := true
          pause_start := some 3 }).2 3 rfl rfl rfl

namespace Ctrl

theorem handleKey_act (t0 : ℤ) (inp : IterInput) (s : CtrlState) (T T' : ℤ)
    (h1 : T ≤ inp.tKey) (h2 : inp.tKey ≤ T') :
    act t0 s T ≤ act t0 (handleKey inp s).1 T' := by
  unfold handleKey
  split_ifs with hp hr hq
  · simp [act, hp.2]
    omega
  · simp [act, hr.2]
    omega
  · cases hsp : s.paused
    · simp [act, hsp]
      omega
    · simp [act, hsp]
  · cases hsp : s.paused
    · simp [act, hsp]
      omega
    · simp [act, hsp]

theorem loopIter_inv (t0 : ℤ) (inp : IterInput) (s : CtrlState) (T : ℤ)
    (h1 : T ≤ inp.tKey) (h2 : inp.tKey ≤ inp.tNow)
    (hI : Inv t0 s T) : Inv t0 (loopIter t0 inp s).1 inp.tNow := by
  obtain ⟨hchain, hbound⟩ := hI
  have hact := handleKey_act t0 inp s T inp.tNow h1 h2
  have hd := (handleKey_data inp s).1
  have hcast : ((act t0 s T : ℤ) : ℚ) ≤
      ((act t0 (handleKey inp s).1 inp.tNow : ℤ) : ℚ) := by
    exact_mod_cast hact
  have hI1 : Inv t0 (handleKey inp s).1 inp.tNow := by
    refine ⟨hd ▸ hchain, ?_⟩
    intro e he
    rw [hd] at he
    exact le_trans (hbound e he) hcast
  simp only [loopIter]
  split_ifs with hb hp
  · exact hI1
  · rcases hv : sensorRead inp with _ | v
    · exact ⟨hI1.1, fun e he => hI1.2 e he⟩
    · obtain ⟨hc1, hb1⟩ := hI1
      have hactS : ((act t0 (handleKey inp s).1 inp.tNow : ℤ) : ℚ) =
          ((inp.tNow - t0 - (handleKey inp s).1.paused_time : ℤ) : ℚ) := by
        simp [act, hp]
      have hquot : (1000 : ℚ) *
          (((inp.tNow - t0 - (handleKey inp s).1.paused_time : ℤ) : ℚ) / 1000) =
          ((inp.tNow - t0 - (handleKey inp s).1.paused_time : ℤ) : ℚ) := by
        ring
      constructor
      · apply List.Chain'.append hc1 (List.chain'_singleton _)
        intro x hx y hy
        have hxmem := List.mem_of_getLast?_eq_some hx
        simp only [List.head?_cons, Option.mem_def, Option.some_inj] at hy
        subst hy
        have hxb := hb1 x hxmem
        rw [hactS] at hxb
        show x.1 ≤ ((inp.tNow - t0 - (handleKey inp s).1.paused_time : ℤ) : ℚ) / 1000
        linarith
      · intro e he
        rcases List.mem_append.mp he with he | he
        · exact hb1 e he
        · simp only [List.mem_singleton] at he
          subst he
          show 1000 *
              (((inp.tNow - t0 - (handleKey inp s).1.paused_time : ℤ) : ℚ) / 1000) ≤ _
          rw [hquot]
          exact le_of_eq hactS.symm
  · exact hI1

theorem run_chain_inv (t0 : ℤ) (l : List IterInput) :
    ∀ (s : CtrlState) (T : ℤ), ticksOrdered T l → Inv t0 s T →
      ((run t0 l s).data).Chain' (fun a b => a.1 ≤ b.1) := by
  induction l with
  | nil => intro s T _ hI; exact hI.1
  | cons inp rest ih =>
      intro s T ht hI
      obtain ⟨ht1, ht2, ht3⟩ := ht
      by_cases hg : s.stopped = true ∨ ¬ s.sample_count < TOTAL_SAMPLES
      · rw [run_stuck t0 _ s hg]
        exact hI.1
      · rw [run_cons, if_neg hg]
        have hI' := loopIter_inv t0 inp s T ht1 ht2 hI
        by_cases hbk : (loopIter t0 inp s).2
        · rw [if_pos hbk]
          exact hI'.1
        · rw [if_neg hbk]
          exact ih _ inp.tNow ht3 hI'

end Ctrl

/-- C7: assuming the underlying clock is monotonic over the run
(`ticksOrdered`), the elapsed times of adjacent stored samples are
non-decreasing in storage order. -/
theorem C7_elapsed_monotone (t0 : ℤ) (inps : List Ctrl.IterInput)
    (h : Ctrl.ticksOrdered t0 inps) :
    ((Ctrl.run t0 inps Ctrl.initState).data).Chain' (fun a b => a.1 ≤ b.1) :=
  Ctrl.run_chain_inv t0 inps Ctrl.initState t0 h
    ⟨List.chain'_nil, fun e he => absurd he (List.not_mem_nil e)⟩

/-- Witness for C7: one running iteration with monotone ticks yields a
stored sequence whose elapsed times form a (trivially) monotone chain. -/
theorem C7_elapsed_monotone_witness :
    Ctrl.ticksOrdered 0 [⟨none, 0, 5, []⟩] ∧
    ((Ctrl.run 0 [⟨none, 0, 5, []⟩] Ctrl.initState).data).Chain'
      (fun a b => a.1 ≤ b.1) :=
  ⟨⟨by norm_num, by norm_num, trivial⟩,
   C7_elapsed_monotone 0 [⟨none, 0, 5, []⟩] ⟨by norm_num, by norm_num, trivial⟩⟩
